import Mathlib

/-!
Verification of the anomaly-detection system: a statistical deviation
engine (`analyze`, with `calculate_mean` and `calculate_std_dev`) and a
threshold-breach engine (`check_thresholds`).  The statistical engine is
embedded over `ℝ` (its standard deviation uses a square root); the
threshold engine over `ℚ` (all its arithmetic is rational).
-/

namespace AnomalyDetector

/-- A sensor reading: caller-supplied identifier, numeric value, and an
opaque timestamp token. -/
structure Reading where
  id : Int
  value : ℝ
  timestamp : String

/-- A finding of the statistical engine. -/
structure Anomaly where
  id : Int
  value : ℝ
  timestamp : String
  z_score : ℝ
  severity : String

/-- The response of `analyze`. -/
structure AnalyzeResponse where
  anomalies : List Anomaly
  total_readings : Nat
  mean : ℝ
  std_dev : ℝ

/-- `calculate_mean` from the source: 0.0 on the empty sequence,
otherwise the sum divided by the length. -/
noncomputable def calculate_mean (values : List ℝ) : ℝ :=
  if values.isEmpty then 0.0
  else values.sum / (values.length : ℝ)

/-- `calculate_std_dev` from the source: 0.0 when the length is at most
one, otherwise the square root of the sum of squared deviations divided
by `n - 1`. -/
noncomputable def calculate_std_dev (values : List ℝ) (mean : ℝ) : ℝ :=
  if values.length ≤ 1 then 0.0
  else Real.sqrt ((values.map (fun v => (v - mean) ^ 2)).sum /
    ((values.length - 1 : ℕ) : ℝ))

/-- `analyze` from the source: compute batch mean and sample standard
deviation, then for each reading (skipped entirely unless
`std_dev > 0.0`) emit an anomaly when the absolute z-score exceeds the
threshold, with a severity tier from the fixed 3.0 / 2.5 cut points. -/
noncomputable def analyze (readings : List Reading) (threshold : ℝ) :
    AnalyzeResponse :=
  let values : List ℝ := readings.map (fun r => r.value)
  let mean := calculate_mean values
  let std_dev := calculate_std_dev values mean
  let anomalies := readings.filterMap (fun reading =>
    if std_dev > 0.0 then
      let z_score := (reading.value - mean) / std_dev
      let abs_z := |z_score|
      if abs_z > threshold then
        some { id := reading.id
               value := reading.value
               timestamp := reading.timestamp
               z_score := z_score
               severity :=
                 if abs_z > 3.0 then "critical"
                 else if abs_z > 2.5 then "high"
                 else "medium" }
      else none
    else none)
  { anomalies := anomalies
    total_readings := values.length
    mean := mean
    std_dev := std_dev }

/-- A concrete three-reading batch with mean 2 and sample standard
deviation 2, used to evaluate `analyze` at a concrete input. -/
def demoBatch : List Reading :=
  [⟨1, 0, "t1"⟩, ⟨2, 2, "t2"⟩, ⟨3, 4, "t3"⟩]

/-- A concrete two-reading constant batch. -/
def constantBatch : List Reading := [⟨1, 5, "t1"⟩, ⟨2, 5, "t2"⟩]

/-- The value sequence of the spec's standard-deviation example. -/
def stdDemoValues : List ℝ := [2, 4, 4, 4, 5, 5, 7, 9]

end AnomalyDetector

namespace ThresholdChecker

/-- An alert of the threshold engine. -/
structure Alert where
  reading_id : Int
  value : ℚ
  breach_type : String
  threshold_value : ℚ
  severity : String
  deriving DecidableEq

/-- `check_thresholds` from the source: for each reading in order, first
check the optional minimum bound, then the optional maximum bound, and
push an alert with a magnitude-relative severity for each breach. -/
def check_thresholds : List (Int × ℚ) → Option ℚ → Option ℚ → List Alert
  | [], _, _ => []
  | (reading_id, value) :: rest, min_threshold, max_threshold =>
    (match min_threshold with
     | some min =>
       if value < min then
         let diff := min - value
         [{ reading_id := reading_id
            value := value
            breach_type := "below_minimum"
            threshold_value := min
            severity :=
              if diff > min * 0.2 then "critical"
              else if diff > min * 0.1 then "high"
              else "medium" }]
       else []
     | none => []) ++
    (match max_threshold with
     | some max =>
       if value > max then
         let diff := value - max
         [{ reading_id := reading_id
            value := value
            breach_type := "above_maximum"
            threshold_value := max
            severity :=
              if diff > max * 0.2 then "critical"
              else if diff > max * 0.1 then "high"
              else "medium" }]
       else []
     | none => []) ++
    check_thresholds rest min_threshold max_threshold

/-- Modelled from the spec: the §4.2 Threshold Engine algorithm
transcribed from the spec's own words (`diff = min_bound - value`,
severity `critical` when `diff > 0.2 * min_bound`, else `high` when
`diff > 0.1 * min_bound`, else `medium`, and symmetrically for
`max_bound`), for comparison with `check_thresholds`. -/
def check_thresholds_spec : List (Int × ℚ) → Option ℚ → Option ℚ → List Alert
  | [], _, _ => []
  | (i, value) :: rest, min_bound, max_bound =>
    (match min_bound with
     | some mn =>
       if value < mn then
         let diff := mn - value
         [{ reading_id := i
            value := value
            breach_type := "below_minimum"
            threshold_value := mn
            severity :=
              if diff > 0.2 * mn then "critical"
              else if diff > 0.1 * mn then "high"
              else "medium" }]
       else []
     | none => []) ++
    (match max_bound with
     | some mx =>
       if value > mx then
         let diff := value - mx
         [{ reading_id := i
            value := value
            breach_type := "above_maximum"
            threshold_value := mx
            severity :=
              if diff > 0.2 * mx then "critical"
              else if diff > 0.1 * mx then "high"
              else "medium" }]
       else []
     | none => []) ++
    check_thresholds_spec rest min_bound max_bound

end ThresholdChecker

namespace AnomalyDetector

/-- The standard deviation computed by the source is never negative:
it is either the 0.0 of the short-batch branch or a square root. -/
theorem calculate_std_dev_nonneg (values : List ℝ) (mean : ℝ) :
    0 ≤ calculate_std_dev values mean := by
  unfold calculate_std_dev
  split
  · norm_num
  · exact Real.sqrt_nonneg _

/-- C7: for every batch and every threshold, the `total_readings` value
returned by `analyze` equals the number of input readings. -/
theorem analyze_total_readings_eq_length
    (readings : List Reading) (threshold : ℝ) :
    (analyze readings threshold).total_readings = readings.length := by
  simp [analyze]

/-- C6: `calculate_mean` returns 0.0 on the empty sequence and the
arithmetic mean (sum divided by length) otherwise, and
`calculate_std_dev` returns 0.0 for every sequence of length at most
one, so the division by `n - 1` is never reached with a zero or
negative divisor. -/
theorem calculate_mean_std_dev_edge_cases (values : List ℝ) (mean : ℝ) :
    calculate_mean [] = 0 ∧
    (values ≠ [] →
      calculate_mean values = values.sum / (values.length : ℝ)) ∧
    (values.length ≤ 1 → calculate_std_dev values mean = 0) := by
  refine ⟨by norm_num [calculate_mean], fun h => ?_, fun h => ?_⟩
  · rw [calculate_mean, if_neg (by simpa using h)]
  · rw [calculate_std_dev, if_pos h]
    norm_num

theorem calculate_mean_std_dev_edge_cases_witness :
    calculate_mean [(3 : ℝ), 5] =
      ([(3 : ℝ), 5]).sum / (([(3 : ℝ), 5]).length : ℝ) ∧
    calculate_std_dev [(7 : ℝ)] 7 = 0 :=
  ⟨(calculate_mean_std_dev_edge_cases [(3 : ℝ), 5] 0).2.1 (by simp),
   (calculate_mean_std_dev_edge_cases [(7 : ℝ)] 7).2.2 (by simp)⟩

end AnomalyDetector

namespace ThresholdChecker

/-- Appending batches of readings appends the alert lists: the engine
processes readings one at a time, in order. -/
theorem check_thresholds_append (r₁ r₂ : List (Int × ℚ))
    (mno mxo : Option ℚ) :
    check_thresholds (r₁ ++ r₂) mno mxo =
      check_thresholds r₁ mno mxo ++ check_thresholds r₂ mno mxo := by
  induction r₁ with
  | nil => rfl
  | cons p rest ih =>
    obtain ⟨i, v⟩ := p
    simp only [List.cons_append, check_thresholds, List.append_eq, ih,
      List.append_assoc]

/-- Every alert in the output of `check_thresholds` arises from some
input reading, either through the minimum-bound branch or through the
maximum-bound branch, with exactly the record the source pushes. -/
theorem mem_check_thresholds (readings : List (Int × ℚ))
    (mno mxo : Option ℚ) (a : Alert)
    (ha : a ∈ check_thresholds readings mno mxo) :
    (∃ p ∈ readings, ∃ mn, mno = some mn ∧ p.2 < mn ∧
      a = { reading_id := p.1, value := p.2
            breach_type := "below_minimum", threshold_value := mn
            severity :=
              if mn - p.2 > mn * 0.2 then "critical"
              else if mn - p.2 > mn * 0.1 then "high"
              else "medium" }) ∨
    (∃ p ∈ readings, ∃ mx, mxo = some mx ∧ p.2 > mx ∧
      a = { reading_id := p.1, value := p.2
            breach_type := "above_maximum", threshold_value := mx
            severity :=
              if p.2 - mx > mx * 0.2 then "critical"
              else if p.2 - mx > mx * 0.1 then "high"
              else "medium" }) := by
  induction readings with
  | nil => cases ha
  | cons p rest ih =>
    obtain ⟨i, v⟩ := p
    simp only [check_thresholds, List.mem_append] at ha
    rcases ha with (ha | ha) | ha
    · split at ha
      next mn =>
        split at ha
        next hv =>
          simp only [List.mem_singleton] at ha
          exact Or.inl ⟨(i, v), by simp, mn, rfl, hv, ha⟩
        next hv => cases ha
      next => cases ha
    · split at ha
      next mx =>
        split at ha
        next hv =>
          simp only [List.mem_singleton] at ha
          exact Or.inr ⟨(i, v), by simp, mx, rfl, hv, ha⟩
        next hv => cases ha
      next => cases ha
    · rcases ih ha with ⟨q, hq, hrest⟩ | ⟨q, hq, hrest⟩
      · exact Or.inl ⟨q, List.mem_cons_of_mem _ hq, hrest⟩
      · exact Or.inr ⟨q, List.mem_cons_of_mem _ hq, hrest⟩

/-- C2: `check_thresholds` coincides with the spec's §4.2 algorithm —
a below-minimum alert recording `min_bound` is emitted iff `min_bound`
is present and `value < min_bound`, tiered by `min_bound - value`
against `0.2 * min_bound` then `0.1 * min_bound`, symmetrically for
`max_bound` — and with both bounds absent the output is empty for
every input list. -/
theorem check_thresholds_eq_spec (readings : List (Int × ℚ))
    (mno mxo : Option ℚ) :
    check_thresholds readings mno mxo =
      check_thresholds_spec readings mno mxo ∧
    check_thresholds readings none none = [] := by
  constructor
  · induction readings with
    | nil => rfl
    | cons p rest ih =>
      obtain ⟨i, v⟩ := p
      cases mno <;> cases mxo <;>
        simp [check_thresholds, check_thresholds_spec, ih, mul_comm]
  · induction readings with
    | nil => rfl
    | cons p rest ih =>
      obtain ⟨i, v⟩ := p
      simpa [check_thresholds] using ih

/-- C9: output order follows input order (the alert list is a
per-reading concatenation), and a reading strictly between an
inconsistent pair of bounds (`max_bound < value < min_bound`) produces
exactly two consecutive alerts, the below-minimum one immediately
before the above-maximum one. -/
theorem check_thresholds_double_breach
    (r₁ r₂ : List (Int × ℚ)) (i : Int) (v mn mx : ℚ)
    (h1 : mx < v) (h2 : v < mn) :
    (∀ mno mxo : Option ℚ,
      check_thresholds (r₁ ++ r₂) mno mxo =
        check_thresholds r₁ mno mxo ++ check_thresholds r₂ mno mxo) ∧
    (∃ s₁ s₂ : String,
      check_thresholds (r₁ ++ (i, v) :: r₂) (some mn) (some mx) =
        check_thresholds r₁ (some mn) (some mx) ++
          { reading_id := i, value := v, breach_type := "below_minimum",
            threshold_value := mn, severity := s₁ } ::
          { reading_id := i, value := v, breach_type := "above_maximum",
            threshold_value := mx, severity := s₂ } ::
          check_thresholds r₂ (some mn) (some mx)) := by
  refine ⟨fun mno mxo => check_thresholds_append r₁ r₂ mno mxo,
    (if mn - v > mn * 0.2 then "critical"
     else if mn - v > mn * 0.1 then "high" else "medium"),
    (if v - mx > mx * 0.2 then "critical"
     else if v - mx > mx * 0.1 then "high" else "medium"), ?_⟩
  rw [check_thresholds_append r₁ ((i, v) :: r₂) (some mn) (some mx)]
  congr 1
  show (if v < mn then _ else []) ++ (if v > mx then _ else []) ++ _ = _
  rw [if_pos h2, if_pos h1]
  rfl

theorem check_thresholds_double_breach_witness :
    ((0 : ℚ) < 5 ∧ (5 : ℚ) < 10) ∧
    ((∀ mno mxo : Option ℚ,
      check_thresholds ([] ++ []) mno mxo =
        check_thresholds [] mno mxo ++ check_thresholds [] mno mxo) ∧
    (∃ s₁ s₂ : String,
      check_thresholds ([] ++ ((1 : Int), (5 : ℚ)) :: []) (some 10) (some 0) =
        check_thresholds [] (some 10) (some 0) ++
          { reading_id := 1, value := 5, breach_type := "below_minimum",
            threshold_value := 10, severity := s₁ } ::
          { reading_id := 1, value := 5, breach_type := "above_maximum",
            threshold_value := 0, severity := s₂ } ::
          check_thresholds [] (some 10) (some 0))) :=
  ⟨⟨by norm_num, by norm_num⟩,
   check_thresholds_double_breach [] [] 1 5 10 0 (by norm_num) (by norm_num)⟩

/-- C10: when a supplied minimum bound is not positive, every
below-minimum alert is critical, and when a supplied maximum bound is
not positive, every above-maximum alert is critical: the high and
medium tiers are unreachable because the breach magnitude is positive
while `bound * 0.2` is not. -/
theorem check_thresholds_nonpositive_bound_critical
    (readings : List (Int × ℚ)) (mno mxo : Option ℚ) (a : Alert)
    (ha : a ∈ check_thresholds readings mno mxo) :
    (∀ mn : ℚ, mno = some mn → mn ≤ 0 → a.breach_type = "below_minimum" →
      a.severity = "critical") ∧
    (∀ mx : ℚ, mxo = some mx → mx ≤ 0 → a.breach_type = "above_maximum" →
      a.severity = "critical") := by
  rcases mem_check_thresholds readings mno mxo a ha with
    ⟨p, -, mn, hmn, hlt, rfl⟩ | ⟨p, -, mx, hmx, hgt, rfl⟩
  · constructor
    · intro mn' heq hnp _
      rw [hmn, Option.some_inj] at heq
      subst heq
      show (if mn - p.2 > mn * 0.2 then "critical"
            else if mn - p.2 > mn * 0.1 then "high" else "medium") = _
      rw [if_pos (by nlinarith)]
    · intro mx' _ _ hbt
      exact absurd hbt (by simp)
  · constructor
    · intro mn' _ _ hbt
      exact absurd hbt (by simp)
    · intro mx' heq hnp _
      rw [hmx, Option.some_inj] at heq
      subst heq
      show (if p.2 - mx > mx * 0.2 then "critical"
            else if p.2 - mx > mx * 0.1 then "high" else "medium") = _
      rw [if_pos (by nlinarith)]

theorem check_thresholds_nonpositive_bound_critical_witness :
    (⟨1, -5, "below_minimum", -1, "critical"⟩ : Alert) ∈
      check_thresholds [((1 : Int), (-5 : ℚ))] (some (-1)) none ∧
    Alert.severity (⟨1, -5, "below_minimum", -1, "critical"⟩ : Alert) =
      "critical" := by
  have hmem : (⟨1, -5, "below_minimum", -1, "critical"⟩ : Alert) ∈
      check_thresholds [((1 : Int), (-5 : ℚ))] (some (-1)) none := by
    norm_num [check_thresholds]
  exact ⟨hmem,
    (check_thresholds_nonpositive_bound_critical _ _ _ _ hmem).1 (-1) rfl
      (by norm_num) rfl⟩

end ThresholdChecker

namespace AnomalyDetector

/-- The `std_dev` field of the response is the standard deviation the
source computes from the extracted values. -/
theorem analyze_std_dev_def (readings : List Reading) (threshold : ℝ) :
    (analyze readings threshold).std_dev =
      calculate_std_dev (readings.map fun r => r.value)
        (calculate_mean (readings.map fun r => r.value)) := rfl

/-- The `mean` field of the response is the mean the source computes
from the extracted values. -/
theorem analyze_mean_def (readings : List Reading) (threshold : ℝ) :
    (analyze readings threshold).mean =
      calculate_mean (readings.map fun r => r.value) := rfl

/-- C1: when the computed standard deviation is nonzero, a reading
yields a finding exactly when its absolute z-score exceeds the
threshold, and the finding's `z_score` field is the signed quotient
`(value - mean) / std_dev`. -/
theorem analyze_emission_iff (readings : List Reading) (threshold : ℝ)
    (h : (analyze readings threshold).std_dev ≠ 0) :
    (analyze readings threshold).anomalies =
      readings.filterMap (fun r =>
        let z := (r.value - (analyze readings threshold).mean) /
          (analyze readings threshold).std_dev
        if |z| > threshold then
          some { id := r.id, value := r.value, timestamp := r.timestamp,
                 z_score := z,
                 severity := if |z| > 3.0 then "critical"
                   else if |z| > 2.5 then "high" else "medium" }
        else none) := by
  have hpos : 0 < (analyze readings threshold).std_dev :=
    lt_of_le_of_ne (calculate_std_dev_nonneg _ _) (Ne.symm h)
  have h0 : (0.0 : ℝ) = 0 := by norm_num
  rw [analyze_std_dev_def] at hpos
  simp only [analyze, h0]
  apply List.filterMap_congr
  intro r _
  rw [if_pos hpos]

end AnomalyDetector

namespace AnomalyDetector

/-- The demo batch has mean 2. -/
theorem demo_mean : calculate_mean (demoBatch.map fun r => r.value) = 2 := by
  norm_num [demoBatch, calculate_mean]

/-- The demo batch has sample standard deviation 2. -/
theorem demo_std_dev :
    calculate_std_dev (demoBatch.map fun r => r.value) 2 = 2 := by
  rw [calculate_std_dev, if_neg (by norm_num [demoBatch])]
  norm_num [demoBatch]
  rw [show (4 : ℝ) = 2 ^ 2 by norm_num, Real.sqrt_sq (by norm_num)]

/-- Concrete evaluation of `analyze` on the demo batch at threshold
0.5: the two readings with |z| = 1 are emitted, in input order. -/
theorem demo_anomalies :
    (analyze demoBatch 0.5).anomalies =
      [⟨1, 0, "t1", -1, "medium"⟩, ⟨3, 4, "t3", 1, "medium"⟩] := by
  simp only [analyze, demo_mean, demo_std_dev]
  norm_num [demoBatch, List.filterMap_cons]

theorem analyze_emission_iff_witness :
    (analyze demoBatch 0.5).std_dev ≠ 0 ∧
    (analyze demoBatch 0.5).anomalies =
      demoBatch.filterMap (fun r =>
        let z := (r.value - (analyze demoBatch 0.5).mean) /
          (analyze demoBatch 0.5).std_dev
        if |z| > 0.5 then
          some { id := r.id, value := r.value, timestamp := r.timestamp,
                 z_score := z,
                 severity := if |z| > 3.0 then "critical"
                   else if |z| > 2.5 then "high" else "medium" }
        else none) := by
  have hsd : (analyze demoBatch 0.5).std_dev ≠ 0 := by
    rw [analyze_std_dev_def, demo_mean, demo_std_dev]
    norm_num
  exact ⟨hsd, analyze_emission_iff demoBatch 0.5 hsd⟩

/-- C5: whenever the computed standard deviation is 0, `analyze` emits
no findings for any threshold; and any constant-value batch (hence any
single-reading or empty batch) has computed standard deviation 0. -/
theorem analyze_zero_std_dev_no_findings
    (readings : List Reading) (threshold : ℝ) :
    ((analyze readings threshold).std_dev = 0 →
      (analyze readings threshold).anomalies = []) ∧
    (∀ c : ℝ, (∀ r ∈ readings, r.value = c) →
      (analyze readings threshold).std_dev = 0) := by
  constructor
  · intro h
    have h0 : (0.0 : ℝ) = 0 := by norm_num
    rw [analyze_std_dev_def] at h
    simp only [analyze, h0, h]
    simp [lt_irrefl]
  · intro c hc
    rw [analyze_std_dev_def]
    by_cases hlen : (readings.map fun r => r.value).length ≤ 1
    · rw [calculate_std_dev, if_pos hlen]
      norm_num
    · have hvals : ∀ x ∈ readings.map fun r => r.value, x = c := by
        intro x hx
        obtain ⟨r, hr, rfl⟩ := List.mem_map.mp hx
        exact hc r hr
      have hne : (readings.map fun r => r.value) ≠ [] := by
        intro hnil
        rw [hnil] at hlen
        simp at hlen
      have hmean : calculate_mean (readings.map fun r => r.value) = c := by
        rw [calculate_mean, if_neg (by simpa using hne),
          List.sum_eq_card_nsmul _ c hvals, nsmul_eq_mul]
        have hlen0 : ((readings.length : ℕ) : ℝ) ≠ 0 := by
          have hp := List.length_pos.mpr hne
          simp only [List.length_map] at hp
          exact_mod_cast hp.ne'
        field_simp
      rw [calculate_std_dev, if_neg hlen, hmean]
      have hz : ((readings.map fun r => r.value).map
          fun v => (v - c) ^ 2).sum = 0 := by
        rw [List.sum_eq_card_nsmul _ (0 : ℝ), smul_zero]
        intro x hx
        obtain ⟨v, hv, rfl⟩ := List.mem_map.mp hx
        rw [hvals v hv]
        ring
      rw [hz, zero_div, Real.sqrt_zero]

theorem analyze_zero_std_dev_no_findings_witness :
    (analyze constantBatch 2).std_dev = 0 ∧
    (analyze constantBatch 2).anomalies = [] := by
  have hsd : (analyze constantBatch 2).std_dev = 0 :=
    (analyze_zero_std_dev_no_findings constantBatch 2).2 5 (by
      intro r hr
      simp only [constantBatch, List.mem_cons, List.not_mem_nil] at hr
      rcases hr with rfl | rfl | h
      · rfl
      · rfl
      · exact absurd h (by simp))
  exact ⟨hsd, (analyze_zero_std_dev_no_findings constantBatch 2).1 hsd⟩

end AnomalyDetector

namespace AnomalyDetector

/-- C3: the severity of every emitted finding is determined solely by
the absolute z-score, with strict comparisons against the fixed
constants 3.0 and 2.5 (independent of the caller's threshold), and a
value exactly at a cut point falls into the lower tier. -/
theorem anomaly_severity_tiers (readings : List Reading) (threshold : ℝ)
    (x : Anomaly) (hx : x ∈ (analyze readings threshold).anomalies) :
    x.severity = (if |x.z_score| > 3.0 then "critical"
      else if |x.z_score| > 2.5 then "high" else "medium") ∧
    (|x.z_score| = 2.5 → x.severity = "medium") ∧
    (|x.z_score| = 3.0 → x.severity = "high") := by
  have hmain : x.severity = (if |x.z_score| > 3.0 then "critical"
      else if |x.z_score| > 2.5 then "high" else "medium") := by
    simp only [analyze, List.mem_filterMap] at hx
    obtain ⟨r, hr, hfr⟩ := hx
    by_cases hA : calculate_std_dev (readings.map fun r => r.value)
        (calculate_mean (readings.map fun r => r.value)) > 0.0
    · rw [if_pos hA] at hfr
      by_cases hB : |(r.value - calculate_mean (readings.map fun r => r.value)) /
          calculate_std_dev (readings.map fun r => r.value)
            (calculate_mean (readings.map fun r => r.value))| > threshold
      · rw [if_pos hB] at hfr
        obtain rfl := Option.some_inj.mp hfr
        rfl
      · rw [if_neg hB] at hfr
        exact absurd hfr (by simp)
    · rw [if_neg hA] at hfr
      exact absurd hfr (by simp)
  refine ⟨hmain, fun h25 => ?_, fun h30 => ?_⟩
  · rw [hmain, h25]
    norm_num
  · rw [hmain, h30]
    norm_num

theorem anomaly_severity_tiers_witness :
    (⟨1, 0, "t1", -1, "medium"⟩ : Anomaly) ∈
      (analyze demoBatch 0.5).anomalies ∧
    (Anomaly.severity ⟨1, 0, "t1", -1, "medium"⟩ =
      (if |Anomaly.z_score ⟨1, 0, "t1", -1, "medium"⟩| > 3.0 then "critical"
       else if |Anomaly.z_score ⟨1, 0, "t1", -1, "medium"⟩| > 2.5 then "high"
       else "medium") ∧
     (|Anomaly.z_score ⟨1, 0, "t1", -1, "medium"⟩| = 2.5 →
       Anomaly.severity ⟨1, 0, "t1", -1, "medium"⟩ = "medium") ∧
     (|Anomaly.z_score ⟨1, 0, "t1", -1, "medium"⟩| = 3.0 →
       Anomaly.severity ⟨1, 0, "t1", -1, "medium"⟩ = "high")) := by
  have hmem : (⟨1, 0, "t1", -1, "medium"⟩ : Anomaly) ∈
      (analyze demoBatch 0.5).anomalies := by
    rw [demo_anomalies]
    simp
  exact ⟨hmem, anomaly_severity_tiers demoBatch 0.5 _ hmem⟩

/-- C4: for every batch of more than one value, `calculate_std_dev`
uses the sample (N−1) divisor — it equals the square root of the sum
of squared deviations divided by `n - 1` — and on the batch
`[2,4,4,4,5,5,7,9]` the result lies within 0.01 of 2.138. -/
theorem calculate_std_dev_sample_divisor (values : List ℝ) (mean : ℝ)
    (h : 1 < values.length) :
    calculate_std_dev values mean =
      Real.sqrt ((values.map fun v => (v - mean) ^ 2).sum /
        ((values.length - 1 : ℕ) : ℝ)) ∧
    |calculate_std_dev stdDemoValues (calculate_mean stdDemoValues) -
      2.138| < 0.01 := by
  constructor
  · rw [calculate_std_dev, if_neg (by omega)]
  · have hmean : calculate_mean stdDemoValues = 5 := by
      norm_num [stdDemoValues, calculate_mean]
    rw [hmean]
    have hsd : calculate_std_dev stdDemoValues 5 = Real.sqrt (32 / 7) := by
      rw [calculate_std_dev, if_neg (by norm_num [stdDemoValues])]
      norm_num [stdDemoValues]
    rw [hsd, abs_sub_lt_iff]
    constructor
    · have hub : Real.sqrt (32 / 7) < 2.148 := by
        rw [show (2.148 : ℝ) = Real.sqrt (2.148 ^ 2) from
          (Real.sqrt_sq (by norm_num)).symm]
        exact Real.sqrt_lt_sqrt (by norm_num) (by norm_num)
      linarith
    · have hlb : (2.128 : ℝ) < Real.sqrt (32 / 7) := by
        rw [show (2.128 : ℝ) = Real.sqrt (2.128 ^ 2) from
          (Real.sqrt_sq (by norm_num)).symm]
        exact Real.sqrt_lt_sqrt (by norm_num) (by norm_num)
      linarith

theorem calculate_std_dev_sample_divisor_witness :
    calculate_std_dev [(0 : ℝ), 1] 0 =
      Real.sqrt ((([(0 : ℝ), 1]).map fun v => (v - 0) ^ 2).sum /
        ((([(0 : ℝ), 1]).length - 1 : ℕ) : ℝ)) ∧
    |calculate_std_dev stdDemoValues (calculate_mean stdDemoValues) -
      2.138| < 0.01 :=
  calculate_std_dev_sample_divisor [(0 : ℝ), 1] 0 (by norm_num)

/-- The image under `g` of a `filterMap` is a sublist of the image
under `h` whenever `f` sends each kept element `a` to a `b` with
`g b = h a`. -/
theorem filterMap_map_sublist {α β γ : Type} (f : α → Option β)
    (g : β → γ) (h : α → γ) (hfg : ∀ a b, f a = some b → g b = h a) :
    ∀ l : List α, List.Sublist ((l.filterMap f).map g) (l.map h)
  | [] => by simp
  | x :: xs => by
    rw [List.filterMap_cons, List.map_cons]
    cases hfx : f x with
    | none => exact (filterMap_map_sublist f g h hfg xs).cons _
    | some b =>
      rw [List.map_cons, hfg x b hfx]
      exact (filterMap_map_sublist f g h hfg xs).cons₂ _

/-- C8: the findings of `analyze` form a filtered subsequence of the
input — each finding carries the identifier, value and timestamp of its
source reading unchanged, and findings keep the input order. -/
theorem analyze_anomalies_filtered_subsequence
    (readings : List Reading) (threshold : ℝ) :
    List.Sublist
      ((analyze readings threshold).anomalies.map
        fun a => (a.id, a.value, a.timestamp))
      (readings.map fun r => (r.id, r.value, r.timestamp)) := by
  simp only [analyze]
  apply filterMap_map_sublist
  intro r b hb
  split_ifs at hb <;>
    obtain rfl := Option.some_inj.mp hb <;> rfl

end AnomalyDetector
